import Mathlib

/-!
Verification development for the RivetBench dispatch core.

This file shallowly embeds the parts of the repository that the checked
properties are about:

* `src/core/errors.ts` — the error taxonomy (`RivetBenchError` and its four
  subclasses), `toJSON`, and the normalizer `toRivetBenchError`;
* `src/core/error-handler.ts` — the REST error handler branches relevant to
  values thrown by the RPC route;
* the registry with version, ETag, listeners and enricher
  (`InMemoryEndpointRegistry`, file held in the repository next to
  `src/core/endpoint.ts`);
* `src/server/rest.ts` — the body of the `POST /rpc/:name` route;
* `src/cli/index.ts` — `parseCallArgs`, `handleCall` and the command
  dispatch of `createCli().run`;
* the MCP adapter tool `execute` callback.

Modelling conventions, used throughout:

* Untyped JS values are the inductive `Val`. JS numbers are modelled as exact
  rationals (binary floating point is abstracted; no checked property depends
  on float rounding).
* A zod schema is its `parse`/`safeParse` behaviour: a function from a value
  to either a validated (possibly transformed) value or a `ZodErrorData`
  record carrying the raw issue list (`error.issues`), the formatted issue
  tree (`error.format()`), and the message and stack of the `ZodError`
  instance that `parse` would throw.
* A thrown JS value is the inductive `Thrown`; promise rejection and `throw`
  are both `Except.error`.
* Listener callbacks registered on the registry are identified by their
  function reference, modelled as a `Nat` tag; the callbacks themselves are
  treated as inert (their side effects are outside the registry state).
* Methods of the registry that mutate fields are embedded as functions
  returning the successor state; a method that throws before mutating
  returns the unchanged state together with the error.
-/

namespace RivetBench

/-- Untyped JS values as they cross adapter boundaries.
Numbers are exact rationals (float rounding abstracted). -/
inductive Val where
  | vNull : Val
  | vBool (b : Bool) : Val
  | vNum (q : Rat) : Val
  | vStr (s : String) : Val
  | vArr (elems : List Val) : Val
  | vObj (fields : List (String × Val)) : Val

/-- The data of a zod validation failure: the raw issue list
(JS `error.issues`), the formatted issue tree (JS `error.format()`), and the
`message` and `stack` of the `ZodError` instance (V8 always materialises
`stack` on `Error` instances). -/
structure ZodErrorData where
  issues : Val
  formatted : Val
  message : String
  stack : String

/-- A zod schema, embedded as its validation behaviour: `validate` is
`safeParse` (success carries the parsed — possibly transformed — value);
`parse` is the same computation with the failure thrown as a `ZodError`. -/
structure Schema where
  validate : Val → Except ZodErrorData Val

/-- Embeds the `RivetBenchError` class of `src/core/errors.ts`: `name` is the
constructor name, `statusCode`, `code` and optional `details` as stored by the
base-class constructor. -/
structure RBError where
  name : String
  statusCode : Nat
  code : String
  message : String
  details : Option Val

/-- The base-class constructor of `src/core/errors.ts`
(`constructor(message, statusCode = 500, code?, details?)`): `name` is the
runtime constructor name and `code` falls back to it when the given code is
absent or the empty string (JS `code || this.constructor.name`, where the
empty string is falsy). -/
def mkRBError (ctorName : String) (message : String) (statusCode : Nat)
    (code : Option String) (details : Option Val) : RBError :=
  { name := ctorName
    statusCode := statusCode
    code := match code with
      | none => ctorName
      | some c => if c = "" then ctorName else c
    message := message
    details := details }

/-- `class ValidationError` — 400, code `VALIDATION_ERROR`. -/
def ValidationError (message : String) (details : Option Val) : RBError :=
  mkRBError ("ValidationError") message 400 (some ("VALIDATION_ERROR")) details

/-- `class EndpointNotFoundError` — 404, code `ENDPOINT_NOT_FOUND`, with the
requested name both in the message and in `details.endpointName`. -/
def EndpointNotFoundError (endpointName : String) : RBError :=
  mkRBError ("EndpointNotFoundError")
    ("Endpoint \x27" ++ endpointName ++ "\x27 not found") 404
    (some ("ENDPOINT_NOT_FOUND"))
    (some (.vObj [("endpointName", .vStr endpointName)]))

/-- `class InternalServerError` — 500, code `INTERNAL_SERVER_ERROR`. -/
def InternalServerError (message : String) (details : Option Val) : RBError :=
  mkRBError ("InternalServerError") message 500 (some ("INTERNAL_SERVER_ERROR")) details

/-- `class ConfigurationError` — 500, code `CONFIGURATION_ERROR`. -/
def ConfigurationError (message : String) (details : Option Val) : RBError :=
  mkRBError ("ConfigurationError") message 500 (some ("CONFIGURATION_ERROR")) details

/-- `RivetBenchError.toJSON()`: the serialization shape sent across adapter
boundaries — `name`, `code`, `message`, and `details` only when present. -/
def toJSON (e : RBError) : Val :=
  .vObj [("error", .vObj
    ([("name", .vStr e.name), ("code", .vStr e.code), ("message", .vStr e.message)]
      ++ match e.details with
         | some d => [("details", d)]
         | none => []))]

/-- The values the embedded code can throw: a taxonomy error, the `ZodError`
thrown by `schema.parse`, any other `Error` instance, or a non-`Error`
value. A plain `Error` carries name, message and stack, plus the two extra
enumerable properties the REST error handler inspects: an optional
`statusCode` (Fastify-style errors; `none` models an absent property and
`some 0` a present falsy one) and an optional `code` string. -/
inductive Thrown where
  | rivet (e : RBError) : Thrown
  | zod (z : ZodErrorData) : Thrown
  | jsError (name : String) (message : String) (stack : String)
      (statusCode : Option Nat) (code : Option String) : Thrown
  | value (v : Val) : Thrown

/-- `toRivetBenchError` of `src/core/errors.ts`: taxonomy errors pass through
unchanged; any other `Error` instance (a `ZodError` included, since
`ZodError extends Error`) is wrapped into an `InternalServerError` whose
details carry the original constructor name and the stack (any `statusCode`
or `code` property of the foreign error is not read here); any non-`Error`
value is wrapped with the value under `details.error`. -/
def toRivetBenchError : Thrown → RBError
  | .rivet e => e
  | .zod z => InternalServerError z.message
      (some (.vObj [("originalError", .vStr ("ZodError")), ("stack", .vStr z.stack)]))
  | .jsError n m s _ _ => InternalServerError m
      (some (.vObj [("originalError", .vStr n), ("stack", .vStr s)]))
  | .value v => InternalServerError ("An unknown error occurred")
      (some (.vObj [("error", v)]))

/-- `EndpointRuntimeConfig` of `src/core/endpoint.ts`. -/
structure RuntimeConfig where
  requestId : Option String

/-- An endpoint definition (`EndpointDefinition` of `src/core/endpoint.ts`):
name, summary, optional description, input and output schemas, and the
handler, which receives the validated input and the runtime config and either
returns a value or throws. -/
structure Endpoint where
  name : String
  summary : String
  description : Option String
  input : Schema
  output : Schema
  handler : Val → RuntimeConfig → Except Thrown Val

/-- `ToolEnricherContext`: transport tag plus optional session id. -/
inductive TransportType where
  | rest : TransportType
  | mcp : TransportType
  | cli : TransportType
deriving DecidableEq

structure ToolEnricherContext where
  sessionId : Option String
  transportType : TransportType

/-- `ToolEnricher`: transforms the listed tools per request. -/
def ToolEnricher : Type :=
  List Endpoint → ToolEnricherContext → List Endpoint

/-- State of `InMemoryEndpointRegistry`: the insertion-ordered name-keyed map
of endpoints (a JS `Map`, embedded as the list of its entries in insertion
order — `register` only ever inserts fresh names, for which `Map.set`
appends), the listener set (a JS `Set` of function references, embedded as
the insertion-ordered list of their tags; `Set.add` is a no-op on a present
element), the optional enricher, the version counter and the cached ETag. -/
structure Registry where
  endpoints : List Endpoint
  listeners : List Nat
  enricher : Option ToolEnricher
  internalVersion : Nat
  cachedEtag : Option String

/-- `list()`: all endpoints in insertion order (`Array.from(map.values())`). -/
def Registry.list (r : Registry) : List Endpoint :=
  r.endpoints

/-- `get(name)`: the endpoint stored under `name` (`Map.get`); names are
unique in any state reachable through `register`, so the first match is the
entry. -/
def Registry.get (r : Registry) (name : String) : Option Endpoint :=
  r.endpoints.find? (fun e => e.name = name)

/-- `register(endpoint)`: throws (returning the unchanged state — the check
precedes every mutation in the source) when the name exists, otherwise
appends the endpoint and invalidates the cached ETag. -/
def Registry.register (r : Registry) (e : Endpoint) : Registry × Option String :=
  if r.endpoints.any (fun d => d.name = e.name) then
    (r, some ("Endpoint with name \"" ++ e.name ++ "\" already registered"))
  else
    ({ r with endpoints := r.endpoints ++ [e], cachedEtag := none }, none)

/-- `signalToolsChanged()`: bumps the version, invalidates the cached ETag and
then calls every listener in the set, in insertion order; the second component
is the sequence of listener invocations. -/
def Registry.signalToolsChanged (r : Registry) : Registry × List Nat :=
  ({ r with internalVersion := r.internalVersion + 1, cachedEtag := none }, r.listeners)

/-- `setToolEnricher(fn | undefined)`: replaces (or clears) the enricher. -/
def Registry.setToolEnricher (r : Registry) (f : Option ToolEnricher) : Registry :=
  { r with enricher := f }

/-- `listEnriched(context)`: the current list, passed through the enricher
when one is set. The source method reads `this.list()` and `this.enricher`
and writes no field, which the embedding reflects by returning no state. -/
def Registry.listEnriched (r : Registry) (ctx : ToolEnricherContext) : List Endpoint :=
  match r.enricher with
  | none => r.list
  | some f => f r.list ctx

/-- `onToolsChanged(listener)`: `Set.add` — appends the listener tag unless
already present (adding a present element of a JS `Set` changes nothing,
including iteration order). -/
def Registry.onToolsChanged (r : Registry) (l : Nat) : Registry :=
  if l ∈ r.listeners then r else { r with listeners := r.listeners ++ [l] }

/-- The unsubscribe closure returned by `onToolsChanged`:
`() => this.listeners.delete(listener)`. -/
def Registry.unsubscribe (r : Registry) (l : Nat) : Registry :=
  { r with listeners := r.listeners.erase l }

/-- Decimal rendering of a natural number, embedding the JS template-literal
conversion `${this.internalVersion}` (non-negative integers print in
decimal). -/
def natDecimal (n : Nat) : String :=
  if n = 0 then ("0") else String.mk ((Nat.digits 10 n).reverse.map Nat.digitChar)

/-- `parts.join(\x27|\x27)` of the source, written recursively for proofs. -/
def joinBar : List String → String
  | [] => ("")
  | [s] => s
  | s :: t :: rest => s ++ ("|") ++ joinBar (t :: rest)

/-- The per-descriptor fragment of the ETag payload:
`${e.name}:${e.summary ?? \x27\x27}:${e.description ?? \x27\x27}` (the
summary is a required string, so its `?? \x27\x27` is the identity). -/
def descriptorPart (e : Endpoint) : String :=
  e.name ++ (":") ++ e.summary ++ (":") ++ e.description.getD ("")

/-- The fingerprint payload of `computeEtag`:
`v${this.internalVersion}:${parts.join(\x27|\x27)}` over the current
`list()`. -/
def Registry.etagPayload (r : Registry) : String :=
  ("v") ++ natDecimal r.internalVersion ++ (":") ++ joinBar (r.list.map descriptorPart)

/-- Modelled from the spec: the source computes
`createHash(\x27sha256\x27).update(payload).digest(\x27hex\x27).slice(0, 16)`
with the platform library `node:crypto`, which is not part of this
repository. The spec constrains the digest to be a deterministic,
order-sensitive content fingerprint of the payload string — stable for
unchanged state, different whenever the payload records a registration or an
explicit signal — so the digest is modelled as a deterministic injective
function of the payload; the identity embedding is taken. -/
def sha256Fingerprint (payload : String) : String :=
  payload

/-- The final quoting of `computeEtag`: the fingerprint as a quoted string
token. -/
def quoteToken (h : String) : String :=
  ("\"") ++ h ++ ("\"")

/-- `computeEtag()`: quoted fingerprint of the payload. -/
def Registry.computeEtag (r : Registry) : String :=
  quoteToken (sha256Fingerprint r.etagPayload)

/-- The `etag` getter: the cached value when present, else the recomputed
fingerprint (the source also stores the recomputed value back into the cache,
which preserves `EtagConsistent` below and is otherwise unobservable). -/
def Registry.etag (r : Registry) : String :=
  match r.cachedEtag with
  | some s => s
  | none => r.computeEtag

/-- The `version` getter. -/
def Registry.version (r : Registry) : Nat :=
  r.internalVersion

/-- Cache hygiene: a cached ETag, when present, is the fingerprint of the
current state. Every state reachable through the class API satisfies this —
each mutation clears the cache and the getter only stores the recomputed
fingerprint. -/
def Registry.EtagConsistent (r : Registry) : Prop :=
  ∀ s, r.cachedEtag = some s → s = r.computeEtag

/-! ## The dispatch sequence of the adapters

`src/server/rest.ts` (the `POST /rpc/:name` route body) and `handleCall` of
`src/cli/index.ts` each spell out the same four steps — registry lookup,
`input.safeParse`, `await handler`, `output.parse` — differing only in the
runtime config they pass to the handler; `dispatch` is that common body and
the two entry points instantiate it exactly as their sources do. The MCP
adapter registers one tool per endpoint at startup and its `execute`
closure captures the endpoint, so it runs only the validate → handler →
validate tail with no per-call lookup (`mcpToolExecute` below). -/

/-- The lookup → input-validation → handler → output-validation body.
A failed lookup throws `EndpointNotFoundError`; a failed `safeParse` throws
`ValidationError` with the formatted issues under `issues` and the operation
name under `detailsKey`; a handler exception propagates; a failed
`output.parse` throws the `ZodError`. -/
def dispatch (inputErrMsg : String) (detailsKey : String) (r : Registry)
    (name : String) (raw : Val) (cfg : RuntimeConfig) : Except Thrown Val :=
  match r.get name with
  | none => .error (.rivet (EndpointNotFoundError name))
  | some ep =>
    match ep.input.validate raw with
    | .error z => .error (.rivet (ValidationError inputErrMsg
        (some (.vObj [(detailsKey, .vStr name), ("issues", z.formatted)]))))
    | .ok vin =>
      match ep.handler vin cfg with
      | .error t => .error t
      | .ok res =>
        match ep.output.validate res with
        | .error z => .error (.zod z)
        | .ok out => .ok out

/-- The `POST /rpc/:name` route body of `src/server/rest.ts`: message
`Invalid endpoint input`, details key `endpoint`, config
`{ requestId: request.id }`. -/
def restRoute (r : Registry) (name : String) (body : Val) (rid : String) :
    Except Thrown Val :=
  dispatch ("Invalid endpoint input") ("endpoint") r name body ⟨some rid⟩

/-- `handleCall` of `src/cli/index.ts` after argv parsing: message
`Invalid endpoint input`, details key `endpoint`, config
`{ requestId: randomUUID() }` (the fresh UUID is a parameter here). -/
def cliCallCore (r : Registry) (name : String) (input : Val) (rid : String) :
    Except Thrown Val :=
  dispatch ("Invalid endpoint input") ("endpoint") r name input ⟨some rid⟩

/-- The MCP tool `execute` callback registered at startup for one endpoint.
The adapter iterates `registry.list()` once and each tool closure captures
its `endpoint` — there is no per-call registry lookup, and an unknown tool
name is answered by the FastMCP library before this code runs. The body is
the same validate → handler → validate tail as the other adapters, with
message `Invalid tool input`, details `\x7b tool: endpoint.name, issues \x7d`
and config `\x7b\x7d`. -/
def mcpToolExecute (ep : Endpoint) (args : Val) : Except Thrown Val :=
  match ep.input.validate args with
  | .error z => .error (.rivet (ValidationError ("Invalid tool input")
      (some (.vObj [("tool", .vStr ep.name), ("issues", z.formatted)]))))
  | .ok vin =>
    match ep.handler vin ⟨none⟩ with
    | .error t => .error t
    | .ok res =>
      match ep.output.validate res with
      | .error z => .error (.zod z)
      | .ok out => .ok out

/-- The branches of `createErrorHandler` (`src/core/error-handler.ts`), in
source order, for values thrown by the RPC route body: a `ZodError` becomes
`ValidationError("Request validation failed", \x7b issues: error.issues \x7d)`
at 400; a taxonomy error is sent as itself; an `Error` with a present truthy
`statusCode` property takes the Fastify branch — replied at that status with
body `\x7b name, code: error.code || \x27FASTIFY_ERROR\x27, message \x7d`
and **no** details; everything else is normalized with `toRivetBenchError`.
A thrown non-`Error` value is mapped through the last branch: that is exact
for plain objects without a truthy `statusCode` property, while an object
carrying one would take the Fastify branch and a thrown primitive makes the
`in` check itself throw inside the handler — no theorem below asserts
anything about thrown non-`Error` values on REST (see `nonFastifyThrow`).
The reply is `status(e.statusCode)` with body `e.toJSON()`. -/
def restNormalize : Thrown → RBError
  | .zod z => ValidationError ("Request validation failed")
      (some (.vObj [("issues", z.issues)]))
  | .rivet e => e
  | .jsError n m s sc c =>
    if sc.getD 0 ≠ 0 then
      { name := n
        statusCode := sc.getD 0
        code := match c with
          | none => ("FASTIFY_ERROR")
          | some cc => if cc = "" then ("FASTIFY_ERROR") else cc
        message := m
        details := none }
    else toRivetBenchError (.jsError n m s sc c)
  | .value v => toRivetBenchError (.value v)

/-- What the REST caller observes for `(name, body)`: the 200 value, or the
taxonomy error whose `statusCode` and `toJSON()` form the reply. -/
def restOutcome (r : Registry) (name : String) (body : Val) (rid : String) :
    Except RBError Val :=
  match restRoute r name body rid with
  | .ok v => .ok v
  | .error t => .error (restNormalize t)

/-- What the CLI caller observes after `handleCall` (success payload, or the
error normalized by the `catch` of `createCli().run`). -/
def cliOutcome (r : Registry) (name : String) (input : Val) (rid : String) :
    Except RBError Val :=
  match cliCallCore r name input rid with
  | .ok v => .ok v
  | .error t => .error (toRivetBenchError t)

/-- What the MCP caller observes on the tool registered for `ep`: the
validated output (serialized into tool content), or the normalized error
returned with `isError: true` (the `catch` of the execute callback runs
`toRivetBenchError`). -/
def mcpOutcome (ep : Endpoint) (args : Val) : Except RBError Val :=
  match mcpToolExecute ep args with
  | .ok v => .ok v
  | .error t => .error (toRivetBenchError t)

/-- The error JSON written to stderr by the `catch` of `createCli().run`. -/
def cliErrorBody (t : Thrown) : Val :=
  toJSON (toRivetBenchError t)

/-- The error JSON sent as the REST reply body by `createErrorHandler`. -/
def restErrorBody (t : Thrown) : Val :=
  toJSON (restNormalize t)

/-- The error JSON wrapped into MCP tool content (with `isError: true`). -/
def mcpErrorBody (t : Thrown) : Val :=
  toJSON (toRivetBenchError t)

/-! ## CLI argv parsing (`src/cli/index.ts`) -/

/-- `parseCallArgs` result (`CallCommandArgs`). -/
structure CallCommandArgs where
  endpointName : String
  input : Val
  rawOutput : Bool

/-- First character test, embedding single-character `String.prototype.startsWith`
calls of the source. -/
def headIs (s : String) (c : Char) : Bool :=
  s.data.head? = some c

/-- Last character test, embedding single-character `String.prototype.endsWith`
calls of the source. -/
def lastIs (s : String) (c : Char) : Bool :=
  s.data.getLast? = some c

/-- The digit run of a char list interpreted in decimal
(`Number` on an all-digit string). -/
def digitsVal (cs : List Char) : Nat :=
  cs.foldl (fun a c => 10 * a + (c.toNat - 48)) 0

/-- The test `/^-?\d+(\.\d+)?$/.test(value)` of the coercion code: an optional
leading minus sign, one or more digits, optionally a dot followed by one or
more digits. -/
def isNumericLiteral (s : String) : Bool :=
  let cs := match s.data with
    | c :: rest => if c = Char.ofNat 45 then rest else c :: rest
    | [] => []
  match cs.splitOn (Char.ofNat 46) with
  | [a] => !a.isEmpty && a.all (fun c => c.isDigit)
  | [a, b] => (!a.isEmpty && a.all (fun c => c.isDigit))
      && (!b.isEmpty && b.all (fun c => c.isDigit))
  | _ => false

/-- `Number(value)` on a string matched by the numeric literal regex, as an
exact rational (IEEE rounding abstracted, see the header). -/
def parseDecimalRat (s : String) : Rat :=
  let signAndDigits : Rat × List Char := match s.data with
    | c :: rest => if c = Char.ofNat 45 then (-1, rest) else (1, c :: rest)
    | [] => (1, [])
  match signAndDigits.2.splitOn (Char.ofNat 46) with
  | [a] => signAndDigits.1 * (digitsVal a : Rat)
  | [a, b] => signAndDigits.1 *
      ((digitsVal a : Rat) + (digitsVal b : Rat) / ((10 : Rat) ^ b.length))
  | _ => 0

/-- `flag.replace(/^-+/, \x27\x27)`: the flag with every leading dash
removed. -/
def stripDashes (s : String) : String :=
  String.mk (s.data.dropWhile (fun c => c = Char.ofNat 45))

/-- `value.toLowerCase()` on ASCII data, embedded at the character level. -/
def jsToLower (s : String) : String :=
  String.mk (s.data.map Char.toLower)

/-- The best-effort coercion applied to each named-parameter value:
numeric-looking strings become numbers, `true`/`false` (case-insensitively)
become booleans, bracket- or brace-delimited strings are fed to `JSON.parse`
(kept as strings when parsing fails), anything else stays a string.
`jp` is the external `JSON.parse` builtin (failure carries `String(error)`). -/
def coerceValue (jp : String → Except String Val) (value : String) : Val :=
  if isNumericLiteral value then .vNum (parseDecimalRat value)
  else if jsToLower value = "true" then .vBool true
  else if jsToLower value = "false" then .vBool false
  else if (headIs value (Char.ofNat 91) && lastIs value (Char.ofNat 93))
       || (headIs value (Char.ofNat 123) && lastIs value (Char.ofNat 125)) then
    match jp value with
    | .ok j => j
    | .error _ => .vStr value
  else .vStr value

/-- The second pass of `parseCallArgs`: scan every position of the filtered
argument list for `--input`/`-i`; at the first hit, the next token is the
JSON payload — absent or empty (JS falsy) throws `Missing value for input
flag`, unparseable JSON throws `Invalid JSON input`. `none` means no input
flag is present. -/
def scanInputFlag (jp : String → Except String Val) :
    List String → Option (Except RBError Val)
  | [] => none
  | flag :: rest =>
    if flag = "--input" || flag = "-i" then
      some (match rest.head? with
        | none => .error (ValidationError ("Missing value for input flag")
            (some (.vObj [("flag", .vStr flag)])))
        | some v =>
          if v = "" then
            .error (ValidationError ("Missing value for input flag")
              (some (.vObj [("flag", .vStr flag)])))
          else
            match jp v with
            | .ok j => .ok j
            | .error cause => .error (ValidationError ("Invalid JSON input")
                (some (.vObj [("rawInput", .vStr v), ("cause", .vStr cause)]))))
    else scanInputFlag jp rest

/-- The named-parameter pass of `parseCallArgs`, walking the filtered
arguments two at a time: a falsy flag (the empty string, or running out of
arguments) stops the walk; a flag without a leading dash throws; a flag with
no following token throws; otherwise the dash-stripped flag names the
coerced value. -/
def parsePairs (jp : String → Except String Val) :
    List String → Except RBError (List (String × Val))
  | [] => .ok []
  | flag :: rest =>
    if flag = "" then .ok []
    else if !(headIs flag (Char.ofNat 45)) then
      .error (ValidationError ("Invalid parameter format. Use -paramName value or --input JSON")
        (some (.vObj [("flag", .vStr flag)])))
    else
      match rest with
      | [] => .error (ValidationError ("Missing value for parameter")
          (some (.vObj [("flag", .vStr flag)])))
      | v :: rest2 =>
        match parsePairs jp rest2 with
        | .error e => .error e
        | .ok tail => .ok ((stripDashes flag, coerceValue jp v) :: tail)

/-- JS object property assignment `obj[k] = v`: an existing key keeps its
position and takes the new value, a fresh key is appended. -/
def setField (fields : List (String × Val)) (k : String) (v : Val) :
    List (String × Val) :=
  if fields.any (fun p => p.1 = k) then
    fields.map (fun p => if p.1 = k then (k, v) else p)
  else fields ++ [(k, v)]

/-- Accumulating the named parameters into `parsedInput` in order. -/
def buildObj (pairs : List (String × Val)) : List (String × Val) :=
  pairs.foldl (fun acc p => setField acc p.1 p.2) []

/-- `parseCallArgs(args)`: the endpoint name must be truthy; `--raw`/`-r`
anywhere are consumed as the raw-output flag (first pass); then either the
first `--input`/`-i` selects JSON input, or the remaining tokens parse as
named parameters. -/
def parseCallArgs (jp : String → Except String Val) (args : List String) :
    Except RBError CallCommandArgs :=
  match args with
  | [] => .error (ValidationError ("Endpoint name is required for call command") none)
  | endpointName :: rest =>
    if endpointName = "" then
      .error (ValidationError ("Endpoint name is required for call command") none)
    else
      let rawOutput := rest.any (fun a => a = "--raw" || a = "-r")
      let filtered := rest.filter (fun a => !(a = "--raw" || a = "-r"))
      match scanInputFlag jp filtered with
      | some (.ok j) => .ok ⟨endpointName, j, rawOutput⟩
      | some (.error e) => .error e
      | none =>
        match parsePairs jp filtered with
        | .error e => .error e
        | .ok pairs => .ok ⟨endpointName, .vObj (buildObj pairs), rawOutput⟩

/-- `handleCall(registry, stdout, args)`: parse the argv tail, then run the
dispatch sequence; the success carries the validated output and the raw-output
flag (the subsequent `formatOutput`/`writeLine` rendering is outside the
checked properties). -/
def handleCall (r : Registry) (jp : String → Except String Val) (rid : String)
    (args : List String) : Except Thrown (Val × Bool) :=
  match parseCallArgs jp args with
  | .error e => .error (.rivet e)
  | .ok a =>
    match cliCallCore r a.endpointName a.input rid with
    | .error t => .error t
    | .ok out => .ok (out, a.rawOutput)

/-- The observable outcome of one `createCli().run(argv)` invocation. -/
inductive CliRunOutcome where
  | helpShown : CliRunOutcome
  | listed (entries : List (String × String)) : CliRunOutcome
  | callDone (res : Except RBError (Val × Bool)) : CliRunOutcome
  | unknownCommand (c : String) : CliRunOutcome

/-- `createCli().run(argv)`: an empty argv, or `--help`/`-h` **anywhere in
argv**, prints usage; otherwise the first token selects the command; `call`
errors are normalized by the `catch` with `toRivetBenchError` and written to
stderr. -/
def cliRun (r : Registry) (jp : String → Except String Val) (rid : String)
    (argv : List String) : CliRunOutcome :=
  if argv.isEmpty || argv.contains ("--help") || argv.contains ("-h") then
    .helpShown
  else
    match argv with
    | [] => .helpShown
    | command :: rest =>
      if command = "list" then
        .listed (r.list.map (fun e => (e.name, e.summary)))
      else if command = "call" then
        .callDone ((handleCall r jp rid rest).mapError toRivetBenchError)
      else .unknownCommand command

/-! ## Helper lemmas about the decimal rendering and the ETag payload -/

theorem digitChar_decode {d : Nat} (hd : d < 10) :
    (Nat.digitChar d).toNat - 48 = d := by
  interval_cases d <;> rfl

theorem foldr_digits_eq_ofDigits (l : List Nat) (hl : ∀ d ∈ l, d < 10) :
    l.foldr (fun d a => 10 * a + ((Nat.digitChar d).toNat - 48)) 0 =
      Nat.ofDigits 10 l := by
  induction l with
  | nil => rfl
  | cons d tl ih =>
    have hd : d < 10 := hl d (List.mem_cons_self d tl)
    have htl : ∀ x ∈ tl, x < 10 := fun x hx => hl x (List.mem_cons_of_mem d hx)
    simp only [List.foldr_cons, ih htl, digitChar_decode hd, Nat.ofDigits_cons]
    omega

theorem digitsVal_natDecimal (n : Nat) : digitsVal (natDecimal n).data = n := by
  by_cases h0 : n = 0
  · subst h0; rfl
  · have hlt : ∀ d ∈ Nat.digits 10 n, d < 10 :=
      fun d hd => Nat.digits_lt_base (by norm_num) hd
    simp only [natDecimal, if_neg h0, digitsVal]
    rw [List.foldl_map, List.foldl_reverse]
    rw [foldr_digits_eq_ofDigits (Nat.digits 10 n) hlt, Nat.ofDigits_digits]

theorem natDecimal_inj {m n : Nat} (h : natDecimal m = natDecimal n) : m = n := by
  have := congrArg (fun s => digitsVal s.data) h
  simpa [digitsVal_natDecimal] using this

theorem natDecimal_mem_digitChar {n : Nat} {c : Char}
    (hc : c ∈ (natDecimal n).data) : ∃ d, d < 10 ∧ c = Nat.digitChar d := by
  by_cases h0 : n = 0
  · subst h0
    refine ⟨0, by norm_num, ?_⟩
    have hd : (natDecimal 0).data = [Nat.digitChar 0] := rfl
    rw [hd] at hc
    simpa using hc
  · simp only [natDecimal, if_neg h0, String.mk] at hc
    rcases List.mem_map.mp hc with ⟨d, hd, rfl⟩
    exact ⟨d, Nat.digits_lt_base (by norm_num) (List.mem_reverse.mp hd), rfl⟩

theorem natDecimal_no_colon {n : Nat} {c : Char}
    (hc : c ∈ (natDecimal n).data) : (!(c = Char.ofNat 58)) = true := by
  rcases natDecimal_mem_digitChar hc with ⟨d, hd, rfl⟩
  interval_cases d <;> rfl

theorem takeWhile_append_stop {p : Char → Bool} (l : List Char)
    (hl : ∀ c ∈ l, p c = true) {y : Char} (hy : p y = false) (rest : List Char) :
    (l ++ y :: rest).takeWhile p = l := by
  induction l with
  | nil => simp [List.takeWhile_cons, hy]
  | cons c tl ih =>
    have hc : p c = true := hl c (List.mem_cons_self c tl)
    have htl : ∀ x ∈ tl, p x = true := fun x hx => hl x (List.mem_cons_of_mem c hx)
    simp [List.takeWhile_cons, hc, ih htl]

/-- The version read back from a computed ETag: skip the opening quote and the
`v`, take the digit run before the first colon, read it in decimal. -/
def etagVersion (s : String) : Nat :=
  digitsVal ((s.data.drop 2).takeWhile (fun c => !(c = Char.ofNat 58)))

theorem etagVersion_computeEtag (r : Registry) :
    etagVersion r.computeEtag = r.internalVersion := by
  have hdata : (r.computeEtag).data =
      Char.ofNat 34 :: Char.ofNat 118 ::
        ((natDecimal r.internalVersion).data ++ Char.ofNat 58 ::
          ((joinBar (r.list.map descriptorPart)).data ++ [Char.ofNat 34])) := by
    simp [Registry.computeEtag, quoteToken, sha256Fingerprint, Registry.etagPayload,
      String.data_append]
  rw [etagVersion, hdata]
  simp only [List.drop_succ_cons, List.drop_zero]
  rw [takeWhile_append_stop _ (fun c hc => natDecimal_no_colon hc) (by rfl)]
  exact digitsVal_natDecimal _

theorem computeEtag_length (r : Registry) :
    r.computeEtag.length = r.etagPayload.length + 2 := by
  have h1 : (("\"") : String).length = 1 := rfl
  simp only [Registry.computeEtag, quoteToken, sha256Fingerprint, String.length_append, h1]
  omega

theorem etagPayload_length (r : Registry) :
    r.etagPayload.length =
      (natDecimal r.internalVersion).length + 2 +
        (joinBar (r.list.map descriptorPart)).length := by
  have h1 : (("v") : String).length = 1 := rfl
  have h2 : ((":") : String).length = 1 := rfl
  simp only [Registry.etagPayload, String.length_append, h1, h2]
  omega

theorem joinBar_snoc_length (l : List String) (p : String) (hp : 0 < p.length) :
    (joinBar l).length < (joinBar (l ++ [p])).length := by
  have hbar : (("|") : String).length = 1 := rfl
  induction l with
  | nil => simpa [joinBar] using hp
  | cons s tl ih =>
    cases tl with
    | nil =>
      have h2 : joinBar ([s] ++ [p]) = s ++ ("|") ++ p := rfl
      have h1 : joinBar [s] = s := rfl
      rw [h1, h2]
      simp only [String.length_append, hbar]
      omega
    | cons t tl2 =>
      have h1 : joinBar (s :: t :: tl2) = s ++ ("|") ++ joinBar (t :: tl2) := rfl
      have h2 : joinBar ((s :: t :: tl2) ++ [p]) =
          s ++ ("|") ++ joinBar ((t :: tl2) ++ [p]) := rfl
      rw [h1, h2]
      simp only [String.length_append, hbar]
      omega

theorem descriptorPart_pos (e : Endpoint) : 0 < (descriptorPart e).length := by
  have h1 : ((":") : String).length = 1 := rfl
  simp only [descriptorPart, String.length_append, h1]
  omega

/-! ## Concrete fixtures for witnesses and counterexamples -/

/-- A fixture zod failure record (concrete issue list, formatted tree,
message and stack). -/
def zerr : ZodErrorData :=
  ⟨.vArr [.vStr ("issue0")], .vObj [("_errors", .vArr [.vStr ("issue0")])],
    ("zod message"), ("zod stack line")⟩

/-- Shape check for the echo output object `\x7b echoed: string \x7d`. -/
def isEchoShape : Val → Bool
  | .vObj [(k, .vStr _)] => k = "echoed"
  | _ => false

/-- Input schema of the echo example: an object with exactly a nonempty
string field `message`; a pure check (no transform). -/
def echoInput : Schema :=
  ⟨fun v => match v with
    | .vObj [(k, .vStr s)] =>
      if k = "message" && !(s = "") then .ok (.vObj [(k, .vStr s)]) else .error zerr
    | _ => .error zerr⟩

/-- Output schema of the echo example: a pure check for the echo shape. -/
def echoOutput : Schema :=
  ⟨fun v => if isEchoShape v then .ok v else .error zerr⟩

/-- The echo handler: `(\x7b input \x7d) => (\x7b echoed: input.message \x7d)`;
it ignores the runtime config. -/
def echoHandler : Val → RuntimeConfig → Except Thrown Val :=
  fun v _ => match v with
    | .vObj [(_, .vStr s)] => .ok (.vObj [("echoed", .vStr s)])
    | _ => .ok (.vObj [("echoed", .vStr (""))])

def echoEp : Endpoint :=
  ⟨("echo"), ("Echo endpoint"), some ("Echoes back the message"),
    echoInput, echoOutput, echoHandler⟩

/-- A registry holding just the echo endpoint (fresh instance state). -/
def echoReg : Registry :=
  ⟨[echoEp], [], none, 0, none⟩

/-- A schema accepting every value unchanged. -/
def passAll : Schema :=
  ⟨fun v => .ok v⟩

/-- An output schema rejecting every value — an endpoint author bug. -/
def badOut : Schema :=
  ⟨fun _ => .error zerr⟩

/-- An endpoint whose handler violates its own output contract on every
call. -/
def badEp : Endpoint :=
  ⟨("bad"), ("Bad endpoint"), none, passAll, badOut, fun v _ => .ok v⟩

def badReg : Registry :=
  ⟨[badEp], [], none, 0, none⟩

/-- A transforming output schema (zod `z.string().transform(...)` shape):
validation of a string succeeds with a number, so its output does not
re-validate. -/
def transOut : Schema :=
  ⟨fun v => match v with
    | .vStr _ => .ok (.vNum 0)
    | _ => .error zerr⟩

def transEp : Endpoint :=
  ⟨("tr"), ("Transforming endpoint"), none, passAll, transOut,
    fun _ _ => .ok (.vStr ("ab"))⟩

def transReg : Registry :=
  ⟨[transEp], [], none, 0, none⟩

/-- A concrete stand-in for the external `JSON.parse` builtin that always
fails (no checked statement depends on its behaviour). -/
def jp0 : String → Except String Val :=
  fun _ => .error ("SyntaxError: Unexpected token")

/-! ## Registry claims -/

/-- The property of claim C3: a duplicate `register` returns the
name-collision error and the post-state is the pre-state, componentwise —
mapping and order, the descriptor stored under every name, version, cached
ETag, listeners. -/
def RegisterDupSpec (r : Registry) (e : Endpoint) : Prop :=
  r.register e =
    (r, some (("Endpoint with name \"") ++ e.name ++ ("\" already registered"))) ∧
  (r.register e).1.endpoints = r.endpoints ∧
  (r.register e).1.internalVersion = r.internalVersion ∧
  (r.register e).1.cachedEtag = r.cachedEtag ∧
  (r.register e).1.listeners = r.listeners ∧
  ∀ n, (r.register e).1.get n = r.get n

/-- C3: for every registry state and every descriptor whose name is already
registered, `register` fails with the name-collision error and leaves the
prior state completely unchanged — stored mapping, insertion order, the
original descriptor under that name, version and cached ETag (the duplicate
check precedes every mutation). -/
theorem register_duplicate_no_mutation (r : Registry) (e : Endpoint)
    (hdup : r.endpoints.any (fun d => d.name = e.name) = true) :
    RegisterDupSpec r e := by
  refine ⟨?_, ?_, ?_, ?_, ?_, fun n => ?_⟩ <;>
    simp [RegisterDupSpec, Registry.register, hdup]

/-- Witness for C3: registering a second endpoint named `bad` into `badReg`
hits the duplicate branch. -/
theorem register_duplicate_no_mutation_witness :
    (badReg.endpoints.any (fun d => d.name = badEp.name) = true) ∧
      RegisterDupSpec badReg badEp :=
  ⟨rfl, register_duplicate_no_mutation badReg badEp rfl⟩

/-- The property of claim C6: `signalToolsChanged` bumps the version,
clears the ETag cache, and notifies exactly the subscribed listeners, each
once, in subscription order; after `unsubscribe l` the listener `l` receives
no notification while every other listener is notified exactly as before,
in the same relative order. -/
def SignalSpec (r : Registry) (l : Nat) : Prop :=
  r.signalToolsChanged.1.internalVersion = r.internalVersion + 1 ∧
  r.signalToolsChanged.1.cachedEtag = none ∧
  r.signalToolsChanged.2 = r.listeners ∧
  (∀ x ∈ r.listeners, r.signalToolsChanged.2.count x = 1) ∧
  (r.unsubscribe l).signalToolsChanged.2.count l = 0 ∧
  (∀ x, x ≠ l →
    (r.unsubscribe l).signalToolsChanged.2.count x = r.signalToolsChanged.2.count x) ∧
  (r.unsubscribe l).signalToolsChanged.2.Sublist r.signalToolsChanged.2

/-- C6: every `signalChanged` call increments the version, invalidates the
cached ETag and invokes every currently subscribed listener exactly once in
subscription order; an unsubscribed listener receives zero further
notifications while the others are unaffected. The listener list of any
state reachable through `onToolsChanged` is duplicate-free (it embeds a JS
`Set`), which is the hypothesis. -/
theorem signal_notifies_each_listener_once (r : Registry) (l : Nat)
    (hnd : r.listeners.Nodup) : SignalSpec r l := by
  refine ⟨rfl, rfl, rfl, ?_, ?_, ?_, ?_⟩
  · intro x hx
    exact List.count_eq_one_of_mem hnd hx
  · show (r.listeners.erase l).count l = 0
    have h1 := List.count_erase_self l r.listeners
    have h2 := List.nodup_iff_count_le_one.mp hnd l
    omega
  · intro x hx
    exact List.count_erase_of_ne hx r.listeners
  · exact List.erase_sublist l r.listeners

/-- Witness for C6: three subscribed listeners, unsubscribing the middle
one. -/
theorem signal_notifies_each_listener_once_witness :
    (Registry.mk [] [0, 1, 2] none 0 none).listeners.Nodup ∧
      SignalSpec (Registry.mk [] [0, 1, 2] none 0 none) 1 :=
  ⟨by decide, signal_notifies_each_listener_once _ 1 (by decide)⟩

/-- A registry with no listeners, used by the C8 counterexample. -/
def emptyListenerReg : Registry :=
  ⟨[], [], none, 0, none⟩

/-- Counterexample to claim C8 as stated: subscriptions are stored in a JS
`Set` keyed by the listener function reference, so subscribing the same
listener function twice yields one subscription, not two independent ones —
one `signalToolsChanged` invokes it once, not twice. -/
theorem resubscribe_same_listener_not_independent :
    ((emptyListenerReg.onToolsChanged 0).onToolsChanged 0).signalToolsChanged.2.count 0 = 1 ∧
    ¬ (((emptyListenerReg.onToolsChanged 0).onToolsChanged 0).signalToolsChanged.2.count 0 = 2) := by
  decide

/-- The property of the amended claim C8: re-subscribing the same listener
function is a no-op on the whole state; one `signalToolsChanged` then invokes
it exactly once; after calling one of the (identical) unsubscribe closures
the single subscription is gone — the listener is no longer in the set and a
subsequent `signalToolsChanged` invokes it zero times; the unsubscribe
closure is idempotent; and unsubscribing one listener leaves every other
listener subscribed. -/
def ResubscribeSpec (r : Registry) (l l2 : Nat) : Prop :=
  ((r.onToolsChanged l).onToolsChanged l = r.onToolsChanged l) ∧
  ((r.onToolsChanged l).signalToolsChanged.2.count l = 1) ∧
  (l ∉ (((r.onToolsChanged l).onToolsChanged l).unsubscribe l).listeners) ∧
  ((((r.onToolsChanged l).onToolsChanged l).unsubscribe l).signalToolsChanged.2.count l = 0) ∧
  ((r.unsubscribe l).unsubscribe l = r.unsubscribe l) ∧
  (l2 ≠ l → l2 ∈ r.listeners → l2 ∈ (r.unsubscribe l).listeners)

/-- C8 (amended): `onChanged` subscriptions are keyed by listener function
identity; subscribing an already subscribed function again changes nothing,
one `signalChanged` invokes it exactly once, any one of its unsubscribe
functions removes the single subscription (no membership and zero further
notifications afterwards), each unsubscribe function is idempotent, and
unsubscribing removes only that listener. -/
theorem resubscribe_dedup_and_unsubscribe_idempotent (r : Registry) (l l2 : Nat)
    (hnd : r.listeners.Nodup) : ResubscribeSpec r l l2 := by
  have hmem : l ∈ (r.onToolsChanged l).listeners := by
    by_cases h : l ∈ r.listeners <;> simp [Registry.onToolsChanged, h]
  have hnd1 : (r.onToolsChanged l).listeners.Nodup := by
    by_cases h : l ∈ r.listeners
    · simpa [Registry.onToolsChanged, h] using hnd
    · simp only [Registry.onToolsChanged, if_neg h]
      refine hnd.append (List.nodup_singleton l) ?_
      intro a ha hb
      rw [List.mem_singleton] at hb
      subst hb
      exact h ha
  have hdedup : (r.onToolsChanged l).onToolsChanged l = r.onToolsChanged l := by
    show (if l ∈ (r.onToolsChanged l).listeners then _ else _) = _
    rw [if_pos hmem]
  have hgone : l ∉ ((r.onToolsChanged l).unsubscribe l).listeners := by
    intro hmem2
    exact ((List.Nodup.mem_erase_iff hnd1).mp hmem2).1 rfl
  refine ⟨hdedup, ?_, ?_, ?_, ?_, ?_⟩
  · show (r.onToolsChanged l).listeners.count l = 1
    by_cases h : l ∈ r.listeners
    · simp only [Registry.onToolsChanged, if_pos h]
      exact List.count_eq_one_of_mem hnd h
    · simp only [Registry.onToolsChanged, if_neg h]
      rw [List.count_append, List.count_eq_zero_of_not_mem h]
      simp
  · rw [hdedup]
    exact hgone
  · rw [hdedup]
    show ((r.onToolsChanged l).listeners.erase l).count l = 0
    exact List.count_eq_zero_of_not_mem hgone
  · have hout : l ∉ r.listeners.erase l := by
      intro hmem2
      exact ((List.Nodup.mem_erase_iff hnd).mp hmem2).1 rfl
    show Registry.unsubscribe _ l = _
    unfold Registry.unsubscribe
    rw [List.erase_of_not_mem hout]
  · intro hne hmem2
    exact List.mem_erase_of_ne hne |>.mpr hmem2

/-- Witness for the amended C8. -/
theorem resubscribe_dedup_witness :
    ([0, 1] : List Nat).Nodup ∧ ResubscribeSpec (Registry.mk [] [0, 1] none 0 none) 0 1 :=
  ⟨by decide, resubscribe_dedup_and_unsubscribe_idempotent _ 0 1 (by decide)⟩

/-- C10: `setEnricher` and `listEnriched` never touch the registry state the
other operations observe — endpoint mapping, listeners, version, cached ETag
and hence the ETag are unchanged by installing, replacing or clearing the
enricher, and `listEnriched` reads without writing (its embedding returns no
state because the source method writes no field); in particular an
enricher-driven change of the visible listing leaves the ETag unchanged. -/
theorem enricher_is_frame (r : Registry) (f : ToolEnricher)
    (g : Option ToolEnricher) (ctx : ToolEnricherContext) :
    (r.setToolEnricher g).endpoints = r.endpoints ∧
    (r.setToolEnricher g).listeners = r.listeners ∧
    (r.setToolEnricher g).internalVersion = r.internalVersion ∧
    (r.setToolEnricher g).cachedEtag = r.cachedEtag ∧
    (r.setToolEnricher g).version = r.version ∧
    (r.setToolEnricher g).etag = r.etag ∧
    (∀ n, (r.setToolEnricher g).get n = r.get n) ∧
    (r.setToolEnricher (some f)).listEnriched ctx = f r.list ctx ∧
    (r.setToolEnricher none).listEnriched ctx = r.list :=
  ⟨rfl, rfl, rfl, rfl, rfl, rfl, fun _ => rfl, rfl, rfl⟩

/-! ## The ETag claim (C4) -/

/-- The content the ETag may depend on, per descriptor. -/
def descriptorKey (e : Endpoint) : String × String × Option String :=
  (e.name, e.summary, e.description)

/-- The payload fragment as a function of that content alone. -/
def partFromKey (k : String × String × Option String) : String :=
  k.1 ++ (":") ++ k.2.1 ++ (":") ++ k.2.2.getD ("")

theorem etag_eq_computeEtag (r : Registry) (hc : r.EtagConsistent) :
    r.etag = r.computeEtag := by
  cases h : r.cachedEtag with
  | none => simp [Registry.etag, h]
  | some s => simp [Registry.etag, h, hc s h]

theorem computeEtag_congr (r r2 : Registry)
    (hv : r2.internalVersion = r.internalVersion)
    (hm : r2.endpoints.map descriptorKey = r.endpoints.map descriptorKey) :
    r2.computeEtag = r.computeEtag := by
  have hmap : ∀ l : List Endpoint, l.map descriptorPart = (l.map descriptorKey).map partFromKey :=
    fun l => by rw [List.map_map]; rfl
  unfold Registry.computeEtag Registry.etagPayload Registry.list
  rw [hv, hmap r2.endpoints, hmap r.endpoints, hm]

/-- The property of claim C4. -/
def EtagSpec (r : Registry) : Prop :=
  r.etag = quoteToken (sha256Fingerprint r.etagPayload) ∧
  (∀ r2 : Registry, r2.EtagConsistent →
     r2.internalVersion = r.internalVersion →
     r2.endpoints.map descriptorKey = r.endpoints.map descriptorKey →
     r2.etag = r.etag) ∧
  (∀ e : Endpoint, (r.register e).2 = none → (r.register e).1.etag ≠ r.etag) ∧
  r.signalToolsChanged.1.etag ≠ r.etag

/-- C4: on every cache-consistent registry the ETag is the quoted
deterministic digest of the payload
`v<version>:<name1>:<summary1>:<description1>|<name2>:...` over the current
list, it is a pure function of the version and the ordered
name/summary/description triples (so identical registration sequences give
identical ETags), and every successful `register` and every
`signalToolsChanged` changes it. -/
theorem etag_is_quoted_content_fingerprint (r : Registry) (hc : r.EtagConsistent) :
    EtagSpec r := by
  refine ⟨etag_eq_computeEtag r hc, ?_, ?_, ?_⟩
  · intro r2 hc2 hv hm
    rw [etag_eq_computeEtag r hc, etag_eq_computeEtag r2 hc2]
    exact computeEtag_congr r r2 hv hm
  · intro e hreg
    by_cases hg : r.endpoints.any (fun d => d.name = e.name) = true
    · simp [Registry.register, hg] at hreg
    · have hpost : (r.register e).1 =
          { r with endpoints := r.endpoints ++ [e], cachedEtag := none } := by
        simp [Registry.register, hg]
      rw [hpost, etag_eq_computeEtag r hc]
      have hpe : ({ r with endpoints := r.endpoints ++ [e], cachedEtag := none } :
          Registry).etag =
          ({ r with endpoints := r.endpoints ++ [e], cachedEtag := none } :
            Registry).computeEtag := rfl
      rw [hpe]
      intro heq
      have hlen := congrArg String.length heq
      rw [computeEtag_length, computeEtag_length, etagPayload_length, etagPayload_length] at hlen
      have hparts : ({ r with endpoints := r.endpoints ++ [e], cachedEtag := none } :
          Registry).list.map descriptorPart =
          r.list.map descriptorPart ++ [descriptorPart e] := by
        simp [Registry.list]
      rw [hparts] at hlen
      have := joinBar_snoc_length (r.list.map descriptorPart) (descriptorPart e)
        (descriptorPart_pos e)
      simp only [Registry.list] at hlen this
      omega
  · rw [etag_eq_computeEtag r hc]
    have hpost : r.signalToolsChanged.1.etag = r.signalToolsChanged.1.computeEtag := rfl
    rw [hpost]
    intro heq
    have hv := congrArg etagVersion heq
    rw [etagVersion_computeEtag, etagVersion_computeEtag] at hv
    simp [Registry.signalToolsChanged] at hv

/-- Witness for C4: the echo registry has an empty ETag cache, hence is
cache-consistent. -/
theorem etag_is_quoted_content_fingerprint_witness :
    echoReg.EtagConsistent ∧ EtagSpec echoReg :=
  ⟨(fun _ h => nomatch h), etag_is_quoted_content_fingerprint echoReg (fun _ h => nomatch h)⟩

/-! ## Pipeline claims -/

/-- Handlers that do not read the per-transport runtime config (each adapter
passes a different request id, so cross-transport agreement of handler
results needs this). -/
def HandlersConfigIndep (r : Registry) : Prop :=
  ∀ ep ∈ r.endpoints, ∀ v c c2, ep.handler v c = ep.handler v c2

/-- The error kind (class name) and machine code an adapter reports. -/
def errKindCode : Except RBError Val → Option (String × String)
  | .error e => some (e.name, e.code)
  | .ok _ => none

theorem dispatch_ok_iff (m1 k1 m2 k2 : String) (r : Registry) (n : String)
    (raw : Val) (c1 c2 : RuntimeConfig) (hconf : HandlersConfigIndep r) (v : Val) :
    dispatch m1 k1 r n raw c1 = .ok v ↔ dispatch m2 k2 r n raw c2 = .ok v := by
  unfold dispatch
  cases hget : r.get n with
  | none => simp
  | some ep =>
    dsimp only
    cases hin : ep.input.validate raw with
    | error z => simp
    | ok vin =>
      dsimp only
      have hmem : ep ∈ r.endpoints := List.mem_of_find?_eq_some hget
      rw [hconf ep hmem vin c1 c2]

theorem restOutcome_ok_iff (r : Registry) (n : String) (raw : Val) (rid : String)
    (v : Val) : restOutcome r n raw rid = .ok v ↔ restRoute r n raw rid = .ok v := by
  unfold restOutcome
  cases restRoute r n raw rid <;> simp

theorem cliOutcome_ok_iff (r : Registry) (n : String) (raw : Val) (rid : String)
    (v : Val) : cliOutcome r n raw rid = .ok v ↔ cliCallCore r n raw rid = .ok v := by
  unfold cliOutcome
  cases cliCallCore r n raw rid <;> simp

theorem mcpOutcome_ok_iff (ep : Endpoint) (raw : Val) (v : Val) :
    mcpOutcome ep raw = .ok v ↔ mcpToolExecute ep raw = .ok v := by
  unfold mcpOutcome
  cases mcpToolExecute ep raw <;> simp

theorem dispatch_mcp_ok_iff (m k : String) (r : Registry) (n : String)
    (raw : Val) (cfg : RuntimeConfig) (ep : Endpoint)
    (hget : r.get n = some ep) (hconf : HandlersConfigIndep r) (v : Val) :
    dispatch m k r n raw cfg = .ok v ↔ mcpToolExecute ep raw = .ok v := by
  unfold dispatch mcpToolExecute
  rw [hget]
  dsimp only
  cases hin : ep.input.validate raw with
  | error z => simp
  | ok vin =>
    dsimp only
    have hmem : ep ∈ r.endpoints := List.mem_of_find?_eq_some hget
    rw [hconf ep hmem vin cfg ⟨none⟩]

/-- Thrown values whose normalization by the REST error handler coincides
with `toRivetBenchError`: taxonomy errors (both pass them through) and
`Error` instances without a present truthy `statusCode` property. Excluded:
`ZodError`s take the dedicated 400 branch, a truthy `statusCode` takes the
Fastify branch, and for a thrown non-`Error` value the `in` check of the
Fastify branch itself throws inside the handler, so nothing is asserted
about those on REST. -/
def nonFastifyThrow : Thrown → Prop
  | .rivet _ => True
  | .zod _ => False
  | .jsError _ _ _ sc _ => sc.getD 0 = 0
  | .value _ => False

/-- The property of the amended claim C1. The MCP clauses speak of the tool
that the adapter registered at startup for the endpoint stored under `n`
(its execute closure captures that endpoint; unknown tool names never reach
the embedded code, so the lookup-failure clause covers REST and CLI
only). -/
def TransportParityAt (r : Registry) (n : String) (raw : Val) (rid rid2 : String) : Prop :=
  (∀ v, restOutcome r n raw rid = .ok v ↔ cliOutcome r n raw rid2 = .ok v) ∧
  (∀ ep, r.get n = some ep →
    ∀ v, restOutcome r n raw rid = .ok v ↔ mcpOutcome ep raw = .ok v) ∧
  (r.get n = none →
    restOutcome r n raw rid = .error (EndpointNotFoundError n) ∧
    cliOutcome r n raw rid2 = .error (EndpointNotFoundError n)) ∧
  (∀ ep z, r.get n = some ep → ep.input.validate raw = .error z →
    errKindCode (restOutcome r n raw rid) = some (("ValidationError"), ("VALIDATION_ERROR")) ∧
    errKindCode (cliOutcome r n raw rid2) = some (("ValidationError"), ("VALIDATION_ERROR")) ∧
    errKindCode (mcpOutcome ep raw) = some (("ValidationError"), ("VALIDATION_ERROR"))) ∧
  (∀ ep vin t, r.get n = some ep → ep.input.validate raw = .ok vin →
    ep.handler vin ⟨some rid⟩ = .error t →
    cliOutcome r n raw rid2 = .error (toRivetBenchError t) ∧
    mcpOutcome ep raw = .error (toRivetBenchError t)) ∧
  (∀ ep vin t, r.get n = some ep → ep.input.validate raw = .ok vin →
    ep.handler vin ⟨some rid⟩ = .error t → nonFastifyThrow t →
    restOutcome r n raw rid = .error (toRivetBenchError t))

/-- C1 (amended): for handlers that do not depend on the runtime config, the
adapters agree on success values; REST and CLI agree exactly on lookup
failures; all three agree on the kind and code of input-validation failures;
CLI and the startup-registered MCP tool agree on the normalization of every
handler-thrown value; and REST agrees with them whenever the thrown value is
a taxonomy error or an `Error` without a truthy `statusCode` property.
Output-validation failures, handler-thrown `ZodError`s and handler-thrown
Fastify-style status errors break parity (see the counterexample). -/
theorem transport_parity_outside_output_validation (r : Registry) (n : String)
    (raw : Val) (rid rid2 : String) (hconf : HandlersConfigIndep r) :
    TransportParityAt r n raw rid rid2 := by
  refine ⟨?_, ?_, ?_, ?_, ?_, ?_⟩
  · intro v
    rw [restOutcome_ok_iff, cliOutcome_ok_iff]
    exact dispatch_ok_iff _ _ _ _ r n raw _ _ hconf v
  · intro ep hget v
    rw [restOutcome_ok_iff, mcpOutcome_ok_iff]
    exact dispatch_mcp_ok_iff _ _ r n raw _ ep hget hconf v
  · intro hget
    refine ⟨?_, ?_⟩ <;>
      simp [restOutcome, restRoute, cliOutcome, cliCallCore,
        dispatch, hget, restNormalize, toRivetBenchError]
  · intro ep z hget hin
    refine ⟨?_, ?_, ?_⟩ <;>
      simp [restOutcome, restRoute, cliOutcome, cliCallCore, mcpOutcome,
        mcpToolExecute, dispatch, hget, hin, restNormalize, toRivetBenchError,
        errKindCode, ValidationError, mkRBError]
  · intro ep vin t hget hin hh
    have hmem : ep ∈ r.endpoints := List.mem_of_find?_eq_some hget
    have hcli : ep.handler vin ⟨some rid2⟩ = .error t :=
      (hconf ep hmem vin ⟨some rid2⟩ ⟨some rid⟩).trans hh
    have hmcp : ep.handler vin ⟨none⟩ = .error t :=
      (hconf ep hmem vin ⟨none⟩ ⟨some rid⟩).trans hh
    refine ⟨?_, ?_⟩
    · simp [cliOutcome, cliCallCore, dispatch, hget, hin, hcli]
    · simp [mcpOutcome, mcpToolExecute, hin, hmcp]
  · intro ep vin t hget hin hh hnf
    have hnorm : restNormalize t = toRivetBenchError t := by
      cases t with
      | rivet e => rfl
      | zod z => exact absurd hnf (by simp [nonFastifyThrow])
      | jsError a b c sc cd =>
        have hsc : sc.getD 0 = 0 := hnf
        simp [restNormalize, hsc]
      | value v => exact absurd hnf (by simp [nonFastifyThrow])
    simp [restOutcome, restRoute, dispatch, hget, hin, hh, hnorm]

/-- Witness for the amended C1 at the echo registry (its handler ignores the
config). -/
theorem transport_parity_witness :
    HandlersConfigIndep echoReg ∧
      TransportParityAt echoReg ("echo") (.vObj [("message", .vStr ("hi"))]) ("r1") ("r2") :=
  ⟨(fun ep hm v c c2 => by
      have h2 : ep = echoEp := by simpa [echoReg] using hm
      subst h2
      rfl),
    transport_parity_outside_output_validation echoReg ("echo")
      (.vObj [("message", .vStr ("hi"))]) ("r1") ("r2")
      (fun ep hm v c c2 => by
        have h2 : ep = echoEp := by simpa [echoReg] using hm
        subst h2
        rfl)⟩

/-- An endpoint whose handler throws a Fastify-style `Error` carrying a
truthy `statusCode` property (`Object.assign(new Error(...), \x7b statusCode:
403 \x7d)`). -/
def statusEp : Endpoint :=
  ⟨("st"), ("Status-throwing endpoint"), none, passAll, passAll,
    fun _ _ => .error (.jsError ("Error") ("denied") ("at guard (app.js:9:9)")
      (some 403) none)⟩

def statusReg : Registry :=
  ⟨[statusEp], [], none, 0, none⟩

/-- Counterexample to claim C1 as stated, at two concrete inputs. On an
endpoint whose handler violates its output schema, REST reports kind
`ValidationError`, code `VALIDATION_ERROR` (status 400), while CLI and the
startup-registered tool report `InternalServerError`/`INTERNAL_SERVER_ERROR`.
And on an endpoint whose handler throws an `Error` with `statusCode: 403`,
REST takes the Fastify branch of the error handler and reports kind `Error`,
code `FASTIFY_ERROR`, while CLI reports
`InternalServerError`/`INTERNAL_SERVER_ERROR` — so the error kind and code
are not identical across adapters for the same `(name, rawInput)`. -/
theorem transport_parity_cex :
    errKindCode (restOutcome badReg ("bad") .vNull ("r")) =
      some (("ValidationError"), ("VALIDATION_ERROR")) ∧
    errKindCode (cliOutcome badReg ("bad") .vNull ("r")) =
      some (("InternalServerError"), ("INTERNAL_SERVER_ERROR")) ∧
    errKindCode (mcpOutcome badEp .vNull) =
      some (("InternalServerError"), ("INTERNAL_SERVER_ERROR")) ∧
    ¬ (errKindCode (restOutcome badReg ("bad") .vNull ("r")) =
        errKindCode (cliOutcome badReg ("bad") .vNull ("r"))) ∧
    errKindCode (restOutcome statusReg ("st") .vNull ("r")) =
      some (("Error"), ("FASTIFY_ERROR")) ∧
    errKindCode (cliOutcome statusReg ("st") .vNull ("r")) =
      some (("InternalServerError"), ("INTERNAL_SERVER_ERROR")) ∧
    ¬ (errKindCode (restOutcome statusReg ("st") .vNull ("r")) =
        errKindCode (cliOutcome statusReg ("st") .vNull ("r"))) := by
  refine ⟨rfl, rfl, rfl, ?_, rfl, rfl, ?_⟩ <;>
    exact fun h => absurd h (by decide)

/-- The property of the amended claim C2: an output-schema mismatch always
fails — never coerced or dropped — but as `ValidationError("Request
validation failed", \x7b issues \x7d)` on REST (via the `ZodError` branch of
the error handler) and as `InternalServerError` carrying the ZodError
message and, in `details`, the original error name and stack (not the raw
result) on CLI and MCP. -/
def OutputMismatchSpec (r : Registry) (n : String) (raw : Val)
    (rid rid2 : String) (ep : Endpoint) (z : ZodErrorData) : Prop :=
  restOutcome r n raw rid = .error (ValidationError ("Request validation failed")
    (some (.vObj [("issues", z.issues)]))) ∧
  cliOutcome r n raw rid2 = .error (InternalServerError z.message
    (some (.vObj [("originalError", .vStr ("ZodError")), ("stack", .vStr z.stack)]))) ∧
  mcpOutcome ep raw = .error (InternalServerError z.message
    (some (.vObj [("originalError", .vStr ("ZodError")), ("stack", .vStr z.stack)])))

/-- C2 (amended): whenever the handler result fails the output schema, every
adapter fails — REST with `ValidationError` carrying the raw zod issues, CLI
and MCP with `InternalServerError` carrying the ZodError message and the
original error name and stack in `details`. -/
theorem output_mismatch_never_dropped (r : Registry) (n : String) (raw : Val)
    (rid rid2 : String) (ep : Endpoint) (vin res : Val) (z : ZodErrorData)
    (hconf : HandlersConfigIndep r)
    (hget : r.get n = some ep)
    (hin : ep.input.validate raw = .ok vin)
    (hh : ep.handler vin ⟨some rid⟩ = .ok res)
    (hout : ep.output.validate res = .error z) :
    OutputMismatchSpec r n raw rid rid2 ep z := by
  have hmem : ep ∈ r.endpoints := List.mem_of_find?_eq_some hget
  have hcli : ep.handler vin ⟨some rid2⟩ = .ok res :=
    (hconf ep hmem vin ⟨some rid2⟩ ⟨some rid⟩).trans hh
  have hmcp : ep.handler vin ⟨none⟩ = .ok res :=
    (hconf ep hmem vin ⟨none⟩ ⟨some rid⟩).trans hh
  refine ⟨?_, ?_, ?_⟩
  · simp [restOutcome, restRoute, dispatch, hget, hin, hh, hout, restNormalize]
  · simp [cliOutcome, cliCallCore, dispatch, hget, hin, hcli, hout, toRivetBenchError]
  · simp [mcpOutcome, mcpToolExecute, hin, hmcp, hout, toRivetBenchError]

/-- Witness for the amended C2 at the always-invalid output fixture. -/
theorem output_mismatch_never_dropped_witness :
    HandlersConfigIndep badReg ∧
      badReg.get ("bad") = some badEp ∧
      badEp.input.validate .vNull = .ok .vNull ∧
      badEp.handler .vNull ⟨some ("r")⟩ = .ok .vNull ∧
      badEp.output.validate .vNull = .error zerr ∧
      OutputMismatchSpec badReg ("bad") .vNull ("r") ("r2") badEp zerr :=
  ⟨(fun ep hm v c c2 => by
      have h2 : ep = badEp := by simpa [badReg] using hm
      subst h2
      rfl), rfl, rfl, rfl, rfl,
    output_mismatch_never_dropped badReg ("bad") .vNull ("r") ("r2") badEp .vNull .vNull zerr
      (fun ep hm v c c2 => by
        have h2 : ep = badEp := by simpa [badReg] using hm
        subst h2
        rfl) rfl rfl rfl rfl⟩

/-- Counterexample to claim C2 as stated: on REST an output-schema mismatch
is not surfaced as `InternalServerError` — it surfaces as `ValidationError`
(the error handler maps the thrown `ZodError` to a 400). -/
theorem output_mismatch_cex :
    restOutcome badReg ("bad") .vNull ("r") =
      .error (ValidationError ("Request validation failed")
        (some (.vObj [("issues", .vArr [.vStr ("issue0")])]))) ∧
    ¬ (errKindCode (restOutcome badReg ("bad") .vNull ("r")) =
        some (("InternalServerError"), ("INTERNAL_SERVER_ERROR"))) :=
  ⟨rfl, by decide⟩

/-! ## Round-trip schema validity (C5) -/

/-- Whether a validation result is a failure. -/
def isSchemaError : Except ZodErrorData Val → Bool
  | .error _ => true
  | .ok _ => false

/-- The property of the amended claim C5: the pipeline succeeds with exactly
the value produced by the output-schema validation of the handler result
(for every instantiation of the shared dispatch body — REST and CLI; the
startup-registered MCP tool runs the identical post-lookup tail, see
`dispatch_mcp_ok_iff`), and that value re-validates whenever the output
schema is idempotent (any value it produces validates to itself — true of
plain check schemas, refuted by transforming schemas). -/
def RoundTripSpec (r : Registry) (n : String) (raw : Val) (cfg : RuntimeConfig)
    (ep : Endpoint) (out : Val) : Prop :=
  (∀ m k, dispatch m k r n raw cfg = .ok out) ∧ ep.output.validate out = .ok out

/-- C5 (amended): for a registered operation, an input accepted by the input
schema and a handler result accepted by the output schema, `execute` returns
the output-schema validation of that result; when the output schema is
idempotent, the returned output itself validates against the output
schema. -/
theorem round_trip_schema_validity (r : Registry) (n : String) (raw : Val)
    (cfg : RuntimeConfig) (ep : Endpoint) (vin res out : Val)
    (hget : r.get n = some ep)
    (hin : ep.input.validate raw = .ok vin)
    (hh : ep.handler vin cfg = .ok res)
    (hout : ep.output.validate res = .ok out)
    (hidem : ∀ v w, ep.output.validate v = .ok w → ep.output.validate w = .ok w) :
    RoundTripSpec r n raw cfg ep out := by
  refine ⟨fun m k => ?_, hidem res out hout⟩
  simp [dispatch, hget, hin, hh, hout]

/-- Witness for the amended C5 at the echo endpoint, whose output schema is a
pure check and hence idempotent. -/
theorem round_trip_schema_validity_witness :
    echoReg.get ("echo") = some echoEp ∧
    echoEp.input.validate (.vObj [("message", .vStr ("hi"))]) =
      .ok (.vObj [("message", .vStr ("hi"))]) ∧
    echoEp.handler (.vObj [("message", .vStr ("hi"))]) ⟨some ("w")⟩ =
      .ok (.vObj [("echoed", .vStr ("hi"))]) ∧
    echoEp.output.validate (.vObj [("echoed", .vStr ("hi"))]) =
      .ok (.vObj [("echoed", .vStr ("hi"))]) ∧
    (∀ v w, echoEp.output.validate v = .ok w → echoEp.output.validate w = .ok w) ∧
    RoundTripSpec echoReg ("echo") (.vObj [("message", .vStr ("hi"))]) ⟨some ("w")⟩
      echoEp (.vObj [("echoed", .vStr ("hi"))]) := by
  have hidem : ∀ v w, echoEp.output.validate v = .ok w →
      echoEp.output.validate w = .ok w := by
    intro v w h
    by_cases hs : isEchoShape v = true
    · have hv : echoEp.output.validate v = .ok v := by
        simp [echoEp, echoOutput, hs]
      rw [hv] at h
      cases h
      simp [echoEp, echoOutput, hs]
    · have hv : echoEp.output.validate v = .error zerr := by
        simp [echoEp, echoOutput, hs]
      rw [hv] at h
      cases h
  exact ⟨rfl, rfl, rfl, rfl, hidem,
    round_trip_schema_validity echoReg ("echo") (.vObj [("message", .vStr ("hi"))])
      ⟨some ("w")⟩ echoEp (.vObj [("message", .vStr ("hi"))])
      (.vObj [("echoed", .vStr ("hi"))]) (.vObj [("echoed", .vStr ("hi"))])
      rfl rfl rfl rfl hidem⟩

/-- Counterexample to claim C5 as stated: with a transforming output schema
(zod `transform` — a legal `ZodTypeAny`), the handler result `"ab"` satisfies
the output schema, `execute` succeeds, but the value `execute` returns is the
transformed one, and it does **not** validate against the output schema. -/
theorem round_trip_cex :
    transOut.validate (.vStr ("ab")) = .ok (.vNum 0) ∧
    restOutcome transReg ("tr") .vNull ("r") = .ok (.vNum 0) ∧
    isSchemaError (transOut.validate (.vNum 0)) = true :=
  ⟨rfl, rfl, rfl⟩

/-! ## Error-payload fields (C7) -/

/-- The property of the amended claim C7: a taxonomy error thrown by a
handler crosses each adapter boundary unchanged and serializes with exactly
`name`, `code`, `message` and the details the thrower placed — nothing
else. -/
def TaxonomyErrorSpec (r : Registry) (n : String) (raw : Val)
    (rid rid2 : String) (ep : Endpoint) (e : RBError) : Prop :=
  restOutcome r n raw rid = .error e ∧
  cliOutcome r n raw rid2 = .error e ∧
  mcpOutcome ep raw = .error e ∧
  toJSON e = .vObj [("error", .vObj
    ([("name", .vStr e.name), ("code", .vStr e.code), ("message", .vStr e.message)]
      ++ match e.details with
         | some d => [("details", d)]
         | none => []))]

/-- C7 (amended): errors of the taxonomy (in particular
`InternalServerError` and `ConfigurationError` built by the thrower) reach
the caller of every adapter unchanged, and their serialization carries only
`name`, `code`, `message` and the thrower-supplied `details`; however, the
normalizer wraps foreign `Error` values with `details
\x7b originalError, stack \x7d` (see the counterexample), so for wrapped
native errors the stack does reach the caller. -/
theorem taxonomy_error_details_only (r : Registry) (n : String) (raw : Val)
    (rid rid2 : String) (ep : Endpoint) (vin : Val) (e : RBError)
    (hconf : HandlersConfigIndep r)
    (hget : r.get n = some ep)
    (hin : ep.input.validate raw = .ok vin)
    (hh : ep.handler vin ⟨some rid⟩ = .error (.rivet e)) :
    TaxonomyErrorSpec r n raw rid rid2 ep e := by
  have hmem : ep ∈ r.endpoints := List.mem_of_find?_eq_some hget
  have hcli : ep.handler vin ⟨some rid2⟩ = .error (.rivet e) :=
    (hconf ep hmem vin ⟨some rid2⟩ ⟨some rid⟩).trans hh
  have hmcp : ep.handler vin ⟨none⟩ = .error (.rivet e) :=
    (hconf ep hmem vin ⟨none⟩ ⟨some rid⟩).trans hh
  refine ⟨?_, ?_, ?_, rfl⟩
  · simp [restOutcome, restRoute, dispatch, hget, hin, hh, restNormalize]
  · simp [cliOutcome, cliCallCore, dispatch, hget, hin, hcli, toRivetBenchError]
  · simp [mcpOutcome, mcpToolExecute, hin, hmcp, toRivetBenchError]

/-- An endpoint whose handler throws a `ConfigurationError`-class taxonomy
error with explicit details. -/
def throwEp : Endpoint :=
  ⟨("boom"), ("Throwing endpoint"), none, passAll, passAll,
    fun _ _ => .error (.rivet (ConfigurationError ("bad config")
      (some (.vObj [("why", .vStr ("missing port"))]))))⟩

def throwReg : Registry :=
  ⟨[throwEp], [], none, 0, none⟩

/-- Witness for the amended C7 at the throwing fixture. -/
theorem taxonomy_error_details_only_witness :
    HandlersConfigIndep throwReg ∧
    throwReg.get ("boom") = some throwEp ∧
    throwEp.input.validate .vNull = .ok .vNull ∧
    throwEp.handler .vNull ⟨some ("r")⟩ =
      .error (.rivet (ConfigurationError ("bad config")
        (some (.vObj [("why", .vStr ("missing port"))])))) ∧
    TaxonomyErrorSpec throwReg ("boom") .vNull ("r") ("r2") throwEp
      (ConfigurationError ("bad config")
        (some (.vObj [("why", .vStr ("missing port"))]))) := by
  have hconf : HandlersConfigIndep throwReg := by
    intro ep hm v c c2
    have h2 : ep = throwEp := by simpa [throwReg] using hm
    subst h2
    rfl
  exact ⟨hconf, rfl, rfl, rfl,
    taxonomy_error_details_only throwReg ("boom") .vNull ("r") ("r2") throwEp .vNull
      (ConfigurationError ("bad config") (some (.vObj [("why", .vStr ("missing port"))])))
      hconf rfl rfl rfl⟩

/-- Counterexample to claim C7 as stated: a native `Error` thrown by a
handler is wrapped by `toRivetBenchError` into an `InternalServerError`
whose `details` contain the **stack trace**, and that payload is exactly
what the CLI prints to stderr, the REST error handler sends as the reply
body, and the MCP adapter wraps into tool content — the stack crosses every
adapter boundary although the thrower placed no `details` at all. -/
theorem stack_leak_cex :
    cliErrorBody (.jsError ("Error") ("boom") ("at handler (app.js:1:1)") none none) =
      .vObj [("error", .vObj [("name", .vStr ("InternalServerError")),
        ("code", .vStr ("INTERNAL_SERVER_ERROR")), ("message", .vStr ("boom")),
        ("details", .vObj [("originalError", .vStr ("Error")),
          ("stack", .vStr ("at handler (app.js:1:1)"))])])] ∧
    restErrorBody (.jsError ("Error") ("boom") ("at handler (app.js:1:1)") none none) =
      cliErrorBody (.jsError ("Error") ("boom") ("at handler (app.js:1:1)") none none) ∧
    mcpErrorBody (.jsError ("Error") ("boom") ("at handler (app.js:1:1)") none none) =
      cliErrorBody (.jsError ("Error") ("boom") ("at handler (app.js:1:1)") none none) :=
  ⟨rfl, rfl, rfl⟩

/-! ## CLI flag / parameter separation (C9) -/

/-- The property of the amended claim C9: a named-parameter token `t` whose
dashed form does not collide with any CLI flag token (`--raw`, `-r`,
`--input`, `-i`, `--help`, `-h`), together with a value `v` that is not a
flag token either, is delivered to the endpoint as the parameter
`stripDashes t` with the coerced value — both through `parseCallArgs` and
through the full `run` command dispatch (which is not hijacked by the help
check). -/
def ParamDeliverySpec (jp : String → Except String Val) (r : Registry)
    (rid name t v : String) : Prop :=
  parseCallArgs jp [name, t, v] =
    .ok ⟨name, .vObj [(stripDashes t, coerceValue jp v)], false⟩ ∧
  cliRun r jp rid [("call"), name, t, v] =
    .callDone ((handleCall r jp rid [name, t, v]).mapError toRivetBenchError)

/-- C9 (amended): CLI flags and operation parameters share the single-dash
syntax, so a parameter is delivered if and only if its token avoids the six
flag tokens; under those side conditions the parameter named
`stripDashes t` with the coerced value reaches the endpoint. Parameters
named `raw`, `input` or `help` are safe (`-raw`, `-input`, `-help` collide
with nothing), while parameters named `r`, `i` or `h` are consumed as flags
(see the counterexample). -/
theorem cli_param_delivered_without_flag_collision
    (jp : String → Except String Val) (r : Registry) (rid name t v : String)
    (ht0 : headIs t (Char.ofNat 45) = true)
    (ht1 : t ≠ ("--raw")) (ht2 : t ≠ ("-r"))
    (ht3 : t ≠ ("--input")) (ht4 : t ≠ ("-i"))
    (ht5 : t ≠ ("--help")) (ht6 : t ≠ ("-h"))
    (hv1 : v ≠ ("--raw")) (hv2 : v ≠ ("-r"))
    (hv3 : v ≠ ("--input")) (hv4 : v ≠ ("-i"))
    (hv5 : v ≠ ("--help")) (hv6 : v ≠ ("-h"))
    (hn0 : name ≠ ("")) (hn2 : name ≠ ("--help")) (hn3 : name ≠ ("-h")) :
    ParamDeliverySpec jp r rid name t v := by
  have htne : t ≠ ("") := by
    intro h
    subst h
    simp [headIs] at ht0
  constructor
  · simp only [parseCallArgs, if_neg hn0]
    have hfilter : ([t, v].filter (fun a => !(a = ("--raw") || a = ("-r")))) = [t, v] := by
      simp [List.filter, ht1, ht2, hv1, hv2]
    have hraw : ([t, v].any (fun a => a = ("--raw") || a = ("-r"))) = false := by
      simp [ht1, ht2, hv1, hv2]
    rw [hraw, hfilter]
    have hscan : scanInputFlag jp [t, v] = none := by
      simp [scanInputFlag, ht3, ht4, hv3, hv4]
    rw [hscan]
    have hpairs : parsePairs jp [t, v] = .ok [(stripDashes t, coerceValue jp v)] := by
      simp [parsePairs, htne, ht0]
    rw [hpairs]
    simp [buildObj, setField]
  · have hhelp : (([("call"), name, t, v] : List String).isEmpty ||
        ([("call"), name, t, v] : List String).contains ("--help") ||
        ([("call"), name, t, v] : List String).contains ("-h")) = false := by
      simp [List.contains, List.elem_cons]
      refine ⟨⟨?_, ?_, ?_⟩, ?_, ?_, ?_⟩ <;> intro h <;>
        first
          | exact hn2 h.symm
          | exact ht5 h.symm
          | exact hv5 h.symm
          | exact hn3 h.symm
          | exact ht6 h.symm
          | exact hv6 h.symm
    simp only [cliRun, hhelp, Bool.false_eq_true, if_neg]
    rfl

/-- Witness for the amended C9: `call echo -message hi`. -/
theorem cli_param_delivered_witness :
    headIs ("-message") (Char.ofNat 45) = true ∧
    ParamDeliverySpec jp0 echoReg ("w") ("echo") ("-message") ("hi") :=
  ⟨by decide,
    cli_param_delivered_without_flag_collision jp0 echoReg ("w") ("echo") ("-message") ("hi")
      (by decide) (by decide) (by decide) (by decide) (by decide) (by decide) (by decide)
      (by decide) (by decide) (by decide) (by decide) (by decide) (by decide)
      (by decide) (by decide) (by decide)⟩

/-- Counterexample to claim C9 as stated: operation parameters named `h`,
`r` or `i` are **not** delivered — `-h` anywhere in argv triggers the help
check of `run` before the call command executes, `-r` is consumed as the
raw-output flag (leaving the value token unpaired, which then fails parameter
parsing), and `-i` is consumed as the JSON-input flag. -/
theorem cli_flag_collision_cex :
    cliRun echoReg jp0 ("r") [("call"), ("echo"), ("-h"), ("x")] = .helpShown ∧
    parseCallArgs jp0 [("echo"), ("-r"), ("hello")] =
      .error (ValidationError ("Invalid parameter format. Use -paramName value or --input JSON")
        (some (.vObj [("flag", .vStr ("hello"))]))) ∧
    parseCallArgs jp0 [("echo"), ("-i"), ("hello")] =
      .error (ValidationError ("Invalid JSON input")
        (some (.vObj [("rawInput", .vStr ("hello")),
          ("cause", .vStr ("SyntaxError: Unexpected token"))]))) :=
  ⟨rfl, rfl, rfl⟩

end RivetBench
